import Mathlib

/-!
Verification development for the minecraft-mappings repository.

The Rust sources are embedded shallowly: pure functions become Lean
functions, machine integers become Nat with explicit bounds where the
source checks them, fallible code returns Except/Option, I/O effects
(HTTP transfers, the filesystem, zip archives) become explicit
parameters or descriptive action values, and Rust panics become
distinguished error constructors.
-/

namespace MinecraftMappings

/-! ## String utilities

Helpers mirroring the Rust standard-library string operations used by
the parsers: `str::split(char)`, `str::find(char)` followed by slicing,
and `u32::from_str`.
-/

/-- Embeds Rust `str::split(c)`: splits a character list at every
occurrence of `c`; the result is always non-empty and an empty input
yields one empty piece, exactly as in Rust. -/
def splitOnChar (c : Char) : List Char → List (List Char)
  | [] => [[]]
  | x :: xs =>
    let rest := splitOnChar c xs
    if x = c then [] :: rest
    else
      match rest with
      | [] => [[x]]
      | y :: ys => (x :: y) :: ys

/-- Embeds `s.find(c)` followed by slicing: returns the part before the
first occurrence of `c` and, when `c` occurs, the part after it. -/
def splitFirst (c : Char) : List Char → List Char × Option (List Char)
  | [] => ([], none)
  | x :: xs =>
    if x = c then ([], some xs)
    else
      let p := splitFirst c xs
      (x :: p.1, p.2)

/-- Accumulates the numeric value of a digit list (base 10). -/
def digitsToNat : List Char → Nat → Nat
  | [], acc => acc
  | c :: cs, acc => digitsToNat cs (acc * 10 + (c.toNat - 48))

/-- Embeds Rust `u32::from_str`: an optional leading plus sign, then a
non-empty run of ASCII digits whose value fits in 32 bits. -/
def parseU32 (cs : List Char) : Option Nat :=
  let digits :=
    match cs with
    | '+' :: rest => rest
    | _ => cs
  if digits.isEmpty then none
  else if digits.all Char.isDigit then
    let n := digitsToNat digits 0
    if n < 4294967296 then some n else none
  else none

/-! ## MinecraftVersion (libs/core/src/version.rs) -/

/-- Embeds `MinecraftVersion`: a `(major, minor, patch)` triple of u32
fields; the derived Rust `Ord` compares the fields lexicographically in
declaration order. -/
structure MinecraftVersion where
  major : Nat
  minor : Nat
  patch : Nat
  deriving DecidableEq

/-- Embeds `impl FromStr for MinecraftVersion`: split on a dot, parse a
required major and minor component, an optional patch component, and
reject any fourth component; every failure carries the offending input,
as `InvalidMinecraftVersion(String)` does. -/
def minecraftVersionFromStr (s : String) : Except String MinecraftVersion :=
  match splitOnChar '.' s.data with
  | [a, b] =>
    match parseU32 a, parseU32 b with
    | some major, some minor => .ok ⟨major, minor, 0⟩
    | _, _ => .error s
  | [a, b, c] =>
    match parseU32 a, parseU32 b, parseU32 c with
    | some major, some minor, some patch => .ok ⟨major, minor, patch⟩
    | _, _, _ => .error s
  | _ => .error s

/-- Embeds `impl Display for MinecraftVersion`: `M.m`, plus `.p` when
the patch component is non-zero. -/
def displayMinecraftVersion (v : MinecraftVersion) : String :=
  toString v.major ++ "." ++ toString v.minor ++
    (if v.patch ≠ 0 then "." ++ toString v.patch else "")

/-- C9: Parsing "1.13" as a GameVersion yields (major 1, minor 13,
patch 0) and formatting that value yields "1.13"; "1.8.8" parses to
(1, 8, 8) and formats back to "1.8.8"; parsing "1.8.8.1" (four
dot-separated components) fails with InvalidMinecraftVersion carrying
the input. -/
theorem claim_C9_game_version_round_trip :
    minecraftVersionFromStr "1.13" = .ok ⟨1, 13, 0⟩
    ∧ displayMinecraftVersion ⟨1, 13, 0⟩ = "1.13"
    ∧ minecraftVersionFromStr "1.8.8" = .ok ⟨1, 8, 8⟩
    ∧ displayMinecraftVersion ⟨1, 8, 8⟩ = "1.8.8"
    ∧ minecraftVersionFromStr "1.8.8.1" = .error "1.8.8.1" := by
  refine ⟨rfl, rfl, rfl, rfl, rfl⟩

/-! ## McpVersionSpec (libs/core/src/mcp.rs) -/

/-- Embeds the `McpChannel` enumeration. -/
inductive McpChannel where
  | snapshot
  | stable
  deriving DecidableEq

/-- Embeds `impl FromStr for McpChannel`: only the lower-case channel
names are accepted. -/
def mcpChannelFromChars (cs : List Char) : Option McpChannel :=
  if cs = "snapshot".data then some McpChannel.snapshot
  else if cs = "stable".data then some McpChannel.stable
  else none

/-- Embeds `impl Display for McpChannel` exactly as written in the
source, including the capitalized "Stable" arm. -/
def displayMcpChannel (c : McpChannel) : String :=
  match c with
  | McpChannel.snapshot => "snapshot"
  | McpChannel.stable => "Stable"

/-- Embeds `McpVersion`: a u32 revision plus a channel. -/
structure McpVersion where
  value : Nat
  channel : McpChannel
  deriving DecidableEq

/-- Embeds `McpVersionSpec`: an `McpVersion` plus the nodoc flag. -/
structure McpVersionSpec where
  version : McpVersion
  nodoc : Bool
  deriving DecidableEq

/-- Embeds `impl FromStr for McpVersionSpec`: split on underscores,
parse the channel from the first piece, consume an optional "nodoc"
piece (`Peekable::peeking_next`), then parse the u32 revision from the
next piece; failures carry the input as `InvalidMcpVersionSpec` does.
As in the source, pieces after the revision are ignored. -/
def mcpVersionSpecFromStr (s : String) : Except String McpVersionSpec :=
  match splitOnChar '_' s.data with
  | [] => .error s
  | ch :: rest =>
    match mcpChannelFromChars ch with
    | none => .error s
    | some channel =>
      let consumed :=
        match rest with
        | n :: r2 => if n = "nodoc".data then (true, r2) else (false, rest)
        | [] => (false, ([] : List (List Char)))
      match consumed.2 with
      | [] => .error s
      | v :: _ =>
        match parseU32 v with
        | some value => .ok ⟨⟨value, channel⟩, consumed.1⟩
        | none => .error s

/-- Embeds `impl Display for McpVersionSpec`: the channel display form,
an optional `_nodoc`, then an underscore and the revision. -/
def mcpVersionSpecToString (spec : McpVersionSpec) : String :=
  displayMcpChannel spec.version.channel ++
    (if spec.nodoc then "_nodoc" else "") ++
    "_" ++ toString spec.version.value

/-- C3 fails on the code: parsing "stable_39" gives {revision 39,
channel Stable, nodoc false}, but formatting that value yields
"Stable_39" (the `Display` impl for the stable channel is capitalized),
which the parser rejects, so the stable channel does not round-trip.
The snapshot channel round-trips as the claim states. -/
theorem claim_C3_mcp_spec_stable_display_mismatch :
    mcpVersionSpecFromStr "stable_39" = .ok ⟨⟨39, McpChannel.stable⟩, false⟩
    ∧ mcpVersionSpecToString ⟨⟨39, McpChannel.stable⟩, false⟩ = "Stable_39"
    ∧ mcpVersionSpecToString ⟨⟨39, McpChannel.stable⟩, false⟩ ≠ "stable_39"
    ∧ mcpVersionSpecFromStr "Stable_39" = .error "Stable_39"
    ∧ mcpVersionSpecFromStr "snapshot_nodoc_20180808"
        = .ok ⟨⟨20180808, McpChannel.snapshot⟩, true⟩
    ∧ mcpVersionSpecToString ⟨⟨20180808, McpChannel.snapshot⟩, true⟩
        = "snapshot_nodoc_20180808" := by
  refine ⟨rfl, rfl, by decide, rfl, rfl, rfl⟩

/-! ## TargetMapping (libs/engine/src/target.rs) -/

/-- Embeds the `MappingSystem` enumeration. -/
inductive MappingSystem where
  | srg
  | mcp
  | spigot
  | obf
  deriving DecidableEq

/-- Embeds `MappingSystem::id`. -/
def MappingSystem.toId (s : MappingSystem) : String :=
  match s with
  | MappingSystem.srg => "srg"
  | MappingSystem.mcp => "mcp"
  | MappingSystem.spigot => "spigot"
  | MappingSystem.obf => "obf"

/-- Embeds `MappingSystem::from_id`. -/
def mappingSystemFromId (cs : List Char) : Option MappingSystem :=
  if cs = "srg".data then some MappingSystem.srg
  else if cs = "mcp".data then some MappingSystem.mcp
  else if cs = "spigot".data then some MappingSystem.spigot
  else if cs = "obf".data then some MappingSystem.obf
  else none

/-- Embeds the `TargetFilter` enumeration. -/
inductive TargetFilter where
  | classes
  | members
  deriving DecidableEq

/-- Embeds `TargetFlags`: an optional filter plus the only-obf flag. -/
structure TargetFlags where
  filter : Option TargetFilter
  onlyObf : Bool
  deriving DecidableEq

/-- Embeds `TargetFlags::default`. -/
def TargetFlags.default : TargetFlags := ⟨none, false⟩

/-- Embeds `TargetMapping`: original and renamed system plus flags. -/
structure TargetMapping where
  original : MappingSystem
  renamed : MappingSystem
  flags : TargetFlags
  deriving DecidableEq

/-- Embeds `TargetMapping::new` (default flags). -/
def TargetMapping.new (original renamed : MappingSystem) : TargetMapping :=
  ⟨original, renamed, TargetFlags.default⟩

/-- Embeds the `InvalidTarget` error enumeration (the
`MinecraftVersion` variant is unused by these parsers). -/
inductive InvalidTarget where
  | target (s : String)
  | flags (s : String)
  deriving DecidableEq

/-- Embeds the loop body of `impl FromStr for TargetFlags`: fold the
dash-separated pieces into a `TargetFlags`, rejecting a duplicate
filter, a duplicate only-obf flag, and unknown pieces; the error
carries the full flags substring `s`. -/
def parseFlagPieces (s : String) : List (List Char) → TargetFlags →
    Except InvalidTarget TargetFlags
  | [], acc => .ok acc
  | f :: rest, acc =>
    if f = "classes".data then
      if acc.filter.isSome then .error (InvalidTarget.flags s)
      else parseFlagPieces s rest ⟨some TargetFilter.classes, acc.onlyObf⟩
    else if f = "members".data then
      if acc.filter.isSome then .error (InvalidTarget.flags s)
      else parseFlagPieces s rest ⟨some TargetFilter.members, acc.onlyObf⟩
    else if f = "onlyobf".data then
      if acc.onlyObf then .error (InvalidTarget.flags s)
      else parseFlagPieces s rest ⟨acc.filter, true⟩
    else .error (InvalidTarget.flags s)

/-- Embeds `impl FromStr for TargetFlags`: an empty string is the
default flags, otherwise the dash-separated pieces are folded in any
order. -/
def targetFlagsFromStr (s : String) : Except InvalidTarget TargetFlags :=
  if s.data = [] then .ok TargetFlags.default
  else parseFlagPieces s (splitOnChar '-' s.data) TargetFlags.default

/-- Embeds `impl Display for TargetFlags`: the filter name first, then
`onlyobf`, dash-separated; empty for the default flags. -/
def targetFlagsToString (f : TargetFlags) : String :=
  (match f.filter with
    | none => ""
    | some TargetFilter.classes => "classes"
    | some TargetFilter.members => "members") ++
  (if f.onlyObf then
    (if f.filter.isSome then "-" else "") ++ "onlyobf"
  else "")

/-- Embeds `impl FromStr for TargetMapping`: the piece before the first
dash is split at its first '2' into the two system ids; everything
after the first dash is parsed as `TargetFlags`. -/
def targetFromStr (s : String) : Except InvalidTarget TargetMapping :=
  let first := splitFirst '-' s.data
  match splitFirst '2' first.1 with
  | (_, none) => .error (InvalidTarget.target s)
  | (pre, some post) =>
    match mappingSystemFromId pre, mappingSystemFromId post with
    | some original, some renamed =>
      match first.2 with
      | none => .ok ⟨original, renamed, TargetFlags.default⟩
      | some fs =>
        match targetFlagsFromStr (String.mk fs) with
        | .ok flags => .ok ⟨original, renamed, flags⟩
        | .error e => .error e
    | _, _ => .error (InvalidTarget.target s)

/-- Embeds `impl Display for TargetMapping`: `<from>2<to>`, plus a dash
and the flags string when it is non-empty. -/
def targetToString (t : TargetMapping) : String :=
  t.original.toId ++ "2" ++ t.renamed.toId ++
    (let fs := targetFlagsToString t.flags
     if fs = "" then "" else "-" ++ fs)

/-- C6: Parsing the formatted string of any TargetMapping yields the
same value back; the formatter emits the filter flag before `onlyobf`;
and the parser also accepts the flags in the opposite order, so
"onlyobf-classes" parses to the same value as "classes-onlyobf". -/
theorem claim_C6_target_string_round_trip :
    (∀ t : TargetMapping, targetFromStr (targetToString t) = .ok t)
    ∧ targetToString ⟨MappingSystem.spigot, MappingSystem.mcp,
        ⟨some TargetFilter.classes, true⟩⟩ = "spigot2mcp-classes-onlyobf"
    ∧ targetFromStr "spigot2mcp-classes-onlyobf"
        = .ok ⟨MappingSystem.spigot, MappingSystem.mcp,
            ⟨some TargetFilter.classes, true⟩⟩
    ∧ targetFromStr "spigot2mcp-onlyobf-classes"
        = .ok ⟨MappingSystem.spigot, MappingSystem.mcp,
            ⟨some TargetFilter.classes, true⟩⟩ := by
  refine ⟨?_, rfl, rfl, rfl⟩
  rintro ⟨o, r, filt, ob⟩
  cases o <;> cases r <;> rcases filt with _ | f <;>
    first
      | cases ob <;> rfl
      | cases f <;> cases ob <;> rfl

/-! ## LruCache (src/utils.rs) -/

/-- Association-list lookup, embedding `IndexMap::get`. -/
def alookup {K V : Type} [DecidableEq K] : List (K × V) → K → Option V
  | [], _ => none
  | p :: rest, k => if p.1 = k then some p.2 else alookup rest k

/-- In-place replacement of the value stored under an existing key,
embedding `indexmap::map::Entry::Occupied::insert` (the entry keeps its
position in iteration order). -/
def replaceEntry {K V : Type} [DecidableEq K]
    (l : List (K × V)) (k : K) (v : V) : List (K × V) :=
  l.map (fun p => if p.1 = k then (k, v) else p)

/-- Embeds `LruCache`: a capacity plus an insertion-ordered map,
represented as an ordered association list. -/
structure LruCache (K V : Type) where
  capacity : Nat
  map : List (K × V)

/-- Embeds `LruCache::new`. -/
def LruCache.new {K V : Type} (capacity : Nat) : LruCache K V :=
  ⟨capacity, []⟩

/-- Embeds `LruCache::cleanup` exactly as written: it first asserts
that the map length is at least the capacity, computes
`needed_removed = len - capacity`, then calls `IndexMap::retain` with a
closure returning `index < needed_removed` — `retain` KEEPS the entries
for which the closure is true, so the call keeps the first
`needed_removed` entries — and finally asserts the length is at most
the capacity. A failed assertion is returned as an error value standing
for the Rust panic. -/
def LruCache.cleanup {K V : Type} (c : LruCache K V) :
    Except String (LruCache K V) :=
  if c.map.length ≥ c.capacity then
    let neededRemoved := c.map.length - c.capacity
    let retained := c.map.take neededRemoved
    if retained.length ≤ c.capacity then .ok ⟨c.capacity, retained⟩
    else .error "assertion failed: self.map.len() <= self.capacity"
  else .error "assertion failed: self.map.len() >= self.capacity"

/-- Embeds `LruCache::insert`: an occupied entry is replaced in place
and no cleanup runs; a vacant key is appended at the end and `cleanup`
runs. The returned pair is the previous value (as in the source) plus
the updated cache. -/
def LruCache.insert {K V : Type} [DecidableEq K]
    (c : LruCache K V) (k : K) (v : V) :
    Except String (Option V × LruCache K V) :=
  match alookup c.map k with
  | some old => .ok (some old, ⟨c.capacity, replaceEntry c.map k v⟩)
  | none =>
    (LruCache.cleanup ⟨c.capacity, c.map ++ [(k, v)]⟩).map
      (fun c2 => (none, c2))

/-- C5: inserting a fresh key into an `LruCache` of capacity at least 2
that holds fewer than capacity − 1 entries trips the first cleanup
assertion (`self.map.len() >= self.capacity`); in particular the
capacity-32 cache used for the MCP memo panics on its very first
insertion. -/
theorem claim_C5_lru_insert_assertion_failure :
    (∀ (K V : Type) [DecidableEq K] (c : LruCache K V) (k : K) (v : V),
      2 ≤ c.capacity → c.map.length < c.capacity - 1 →
      alookup c.map k = none →
      LruCache.insert c k v =
        .error "assertion failed: self.map.len() >= self.capacity")
    ∧ ∀ (k v : Nat),
        LruCache.insert (LruCache.new 32 : LruCache Nat Nat) k v =
          .error "assertion failed: self.map.len() >= self.capacity" := by
  constructor
  · intro K V instK c k v hcap hlen hfresh
    unfold LruCache.insert
    rw [hfresh]
    unfold LruCache.cleanup
    have hlt : ¬ ((c.map ++ [(k, v)]).length ≥ c.capacity) := by
      simp only [List.length_append, List.length_cons, List.length_nil]
      omega
    simp only [hlt, if_false, Except.map]
  · intro k v
    unfold LruCache.insert LruCache.new alookup LruCache.cleanup
    simp only [List.nil_append, List.length_cons, List.length_nil]
    rfl

/-- Witness for C5: a concrete capacity-3 cache holding no entries
panics when a fresh key is inserted. -/
theorem claim_C5_witness :
    LruCache.insert (⟨3, []⟩ : LruCache Nat Nat) 7 42 =
      .error "assertion failed: self.map.len() >= self.capacity" :=
  claim_C5_lru_insert_assertion_failure.1 Nat Nat (⟨3, []⟩ : LruCache Nat Nat)
    7 42 (by decide) (by decide) rfl

/-- C2 fails on the code: the FIFO insert semantics never get a chance
to run, because the very first insertion of a fresh key into an empty
capacity-3 cache already fails `cleanup`'s backwards assertion
`self.map.len() >= self.capacity` (length 1 against capacity 3) and
panics instead of storing the key. -/
theorem claim_C2_lru_insert_panics_on_first_insert :
    LruCache.insert (LruCache.new 3 : LruCache Nat String) 1 "one" =
      .error "assertion failed: self.map.len() >= self.capacity" := by
  rfl

/-! ## SRG source fetch decision (libs/core/src/mcp.rs) -/

/-- Embeds the `Ord` implementation of Rust `u32` (used through the
derived `Ord` of `MinecraftVersion`). -/
def natCmp (a b : Nat) : Ordering :=
  if a < b then Ordering.lt
  else if a = b then Ordering.eq
  else Ordering.gt

/-- Embeds the derived `Ord` of `MinecraftVersion`: fields compared in
declaration order with short-circuiting, i.e. lexicographically. -/
def minecraftVersionCmp (a b : MinecraftVersion) : Ordering :=
  (natCmp a.major b.major).then
    ((natCmp a.minor b.minor).then (natCmp a.patch b.patch))

/-- Embeds the `version >= CONFIG_SYSTEM_FIRST_VERSION` comparison. -/
def minecraftVersionGe (a b : MinecraftVersion) : Bool :=
  match minecraftVersionCmp a b with
  | Ordering.lt => false
  | _ => true

/-- Embeds `CONFIG_SYSTEM_FIRST_VERSION` (1.13.0). -/
def configSystemFirstVersion : MinecraftVersion := ⟨1, 13, 0⟩

/-- Embeds the URL built for the new mcp-config system. -/
def mcpConfigUrl (v : MinecraftVersion) : String :=
  "http://files.minecraftforge.net/maven/de/oceanlabs/mcp/mcp_config/" ++
    displayMinecraftVersion v ++ "/mcp_config-" ++
    displayMinecraftVersion v ++ ".zip"

/-- Embeds the URL built for the legacy SRG system. -/
def legacySrgUrl (v : MinecraftVersion) : String :=
  "http://files.minecraftforge.net/maven/de/oceanlabs/mcp/mcp/" ++
    displayMinecraftVersion v ++ "/mcp-" ++
    displayMinecraftVersion v ++ "-srg.zip"

/-- Describes the effect `load_srg_mappings_fallback` performs when
`versions/<V>/joined-mcp.srg` is absent: either download the given URL,
extract the given zip entry, parse it as tab-indented TSRG and
serialize it out in the legacy SRG format (`configSystem`), or download
the given URL and copy the given zip entry's bytes verbatim to the
target path (`legacySystem`). -/
inductive SrgFetchPlan where
  | configSystem (url : String) (zipEntry : String)
  | legacySystem (url : String) (zipEntry : String)
  deriving DecidableEq

/-- Embeds the branch of `load_srg_mappings_fallback` taken when the
normalized SRG file is missing: the mcp-config system is used exactly
when `version >= CONFIG_SYSTEM_FIRST_VERSION`. -/
def srgFetchPlan (v : MinecraftVersion) : SrgFetchPlan :=
  if minecraftVersionGe v configSystemFirstVersion then
    SrgFetchPlan.configSystem (mcpConfigUrl v) "config/joined.tsrg"
  else
    SrgFetchPlan.legacySystem (legacySrgUrl v) "joined.srg"

/-- Modelled from the spec: the lexicographic order on versions as
triples (major, minor, patch), written out directly from the claim's
words, to be compared with the derived-`Ord` comparison the code
uses. -/
def specLexGe (v w : MinecraftVersion) : Prop :=
  w.major < v.major ∨
    (w.major = v.major ∧
      (w.minor < v.minor ∨ (w.minor = v.minor ∧ w.patch ≤ v.patch)))

/-- The boolean comparison the code performs agrees with the
spec's lexicographic order. -/
theorem minecraftVersionGe_iff_specLexGe (v w : MinecraftVersion) :
    minecraftVersionGe v w = true ↔ specLexGe v w := by
  unfold minecraftVersionGe minecraftVersionCmp natCmp specLexGe
  split_ifs <;> simp_all [Ordering.then] <;> omega

/-- C7: when the normalized SRG file is absent, the source downloads
the mcp_config zip and converts `config/joined.tsrg` from the
tab-indented format to legacy SRG exactly when V is at least 1.13.0 in
the lexicographic order on (major, minor, patch); for every smaller V
it downloads the legacy `mcp-<V>-srg.zip` and copies its `joined.srg`
entry verbatim. -/
theorem claim_C7_srg_fetch_system_choice (v : MinecraftVersion) :
    (srgFetchPlan v
        = SrgFetchPlan.configSystem (mcpConfigUrl v) "config/joined.tsrg"
      ↔ specLexGe v configSystemFirstVersion)
    ∧ (srgFetchPlan v
        = SrgFetchPlan.legacySystem (legacySrgUrl v) "joined.srg"
      ↔ ¬ specLexGe v configSystemFirstVersion) := by
  rw [← minecraftVersionGe_iff_specLexGe]
  unfold srgFetchPlan
  cases h : minecraftVersionGe v configSystemFirstVersion <;> simp [h]

/-! ## HTTP download and Spigot version info (src/utils.rs,
libs/core/src/spigot.rs) -/

/-- Embeds the error side of `utils::download`: the dedicated
`HttpNotFound` failure versus any other transport or I/O failure
(curl errors and write-callback I/O errors both surface through the
second constructor, carrying their message). -/
inductive UtilError where
  | httpNotFound
  | other (msg : String)
  deriving DecidableEq

/-- Embeds `utils::download` over an explicit transport outcome: the
HTTP response code and the result of performing the transfer are
inputs. A 404 response code is turned into `HttpNotFound` before the
transfer result is examined; any other failed transfer propagates its
own error. -/
def download (responseCode : Nat) (transfer : Except String Unit) :
    Except UtilError Unit :=
  if responseCode = 404 then .error UtilError.httpNotFound
  else
    match transfer with
    | .error e => .error (UtilError.other e)
    | .ok _ => .ok ()

/-- Embeds `utils::download_buffer`: on success the downloaded bytes
(abstracted as a string) are returned. -/
def downloadBuffer (responseCode : Nat) (transfer : Except String Unit)
    (body : String) : Except UtilError String :=
  (download responseCode transfer).map (fun _ => body)

/-- Describes the observable outcome of
`SpigotMappingsCache::load_version_info`. -/
inductive VersionInfoResult where
  | fromDisk
  | fetched (body : String)
  | failedUnknownVersion (v : MinecraftVersion)
  | failedOther (e : UtilError)
  deriving DecidableEq

/-- Embeds `SpigotMappingsCache::load_version_info`: when the on-disk
JSON exists it is read back; otherwise the version-info endpoint is
fetched, a download failure that downcasts to `HttpNotFound` is
translated to `UnknownMinecraftVersion` for the requested version, any
other download failure propagates unchanged, and a successful body is
persisted and parsed. -/
def loadVersionInfo (v : MinecraftVersion) (fileOnDisk : Bool)
    (dl : Except UtilError String) : VersionInfoResult :=
  if fileOnDisk then VersionInfoResult.fromDisk
  else
    match dl with
    | .error UtilError.httpNotFound => VersionInfoResult.failedUnknownVersion v
    | .error e => VersionInfoResult.failedOther e
    | .ok body => VersionInfoResult.fetched body

/-- C8: when the Spigot version-info JSON is absent on disk and the
HTTP GET returns 404, loading fails with UnknownGameVersion for the
requested version; any other transport error from that fetch
propagates unchanged rather than being converted to
UnknownGameVersion. -/
theorem claim_C8_spigot_version_info_404 (v : MinecraftVersion)
    (transfer : Except String Unit) (body : String) :
    (loadVersionInfo v false (downloadBuffer 404 transfer body)
      = VersionInfoResult.failedUnknownVersion v)
    ∧ ∀ (code : Nat) (e : String), code ≠ 404 →
        loadVersionInfo v false (downloadBuffer code (.error e) body)
          = VersionInfoResult.failedOther (UtilError.other e) := by
  constructor
  · rfl
  · intro code e hcode
    unfold loadVersionInfo downloadBuffer download
    simp only [hcode, if_false, Except.map]
    rfl

/-- Witness for C8 at a concrete version, response code and error. -/
theorem claim_C8_witness :
    loadVersionInfo ⟨1, 8, 8⟩ false
        (downloadBuffer 500 (.error "connection reset") "body")
      = VersionInfoResult.failedOther (UtilError.other "connection reset") :=
  (claim_C8_spigot_version_info_404 ⟨1, 8, 8⟩ (.error "connection reset")
    "body").2 500 "connection reset" (by decide)

/-! ## Mappings algebra

Modelled from the spec: the `FrozenMappings` value and its operations
live in the external `srglib` crate, which is not part of this
repository's sources, so the algebra below follows §4.1 of the spec.
Method signatures are abstracted as the list of class names a
descriptor references; `transformClass` remaps each of them. `invert`
is totalized (the non-injective error case is outside the claims
settled here). -/

/-- Modelled from the spec: a field reference — declaring class plus
name. -/
structure FieldData where
  declaring : String
  name : String
  deriving DecidableEq

/-- Modelled from the spec: a method reference — declaring class, name
and signature, the signature abstracted as the referenced class
names. -/
structure MethodData where
  declaring : String
  name : String
  sig : List String
  deriving DecidableEq

/-- Modelled from the spec: an immutable mappings value with three
aligned insertion-ordered tables. -/
structure Mappings where
  classes : List (String × String)
  fields : List (FieldData × FieldData)
  methods : List (MethodData × MethodData)
  deriving DecidableEq

/-- Modelled from the spec: a class not present in the table is
identity-mapped. -/
def classImage (classes : List (String × String)) (c : String) : String :=
  (alookup classes c).getD c

/-- Modelled from the spec: `MethodSignature::transformClass`, remapping
every referenced class. -/
def transformSig (classes : List (String × String)) (sig : List String) :
    List String :=
  sig.map (classImage classes)

/-- Modelled from the spec (§4.1): `chain(A, B)` — original side from A,
renamed side pushed through B where B has an entry and passed through
as identity otherwise; declaring classes and signatures are rewritten
with the chained class table. -/
def Mappings.chain (a b : Mappings) : Mappings :=
  let cls := a.classes.map (fun p => (p.1, (alookup b.classes p.2).getD p.2))
  { classes := cls
    fields := a.fields.map (fun p =>
      (p.1, { declaring := classImage cls p.1.declaring
              name := ((alookup b.fields p.2).map FieldData.name).getD
                p.2.name }))
    methods := a.methods.map (fun p =>
      (p.1, { declaring := classImage cls p.1.declaring
              name := ((alookup b.methods p.2).map MethodData.name).getD
                p.2.name
              sig := transformSig cls p.1.sig })) }

/-- Modelled from the spec (§4.1): `invert()` — tables flipped, with
declaring classes and method signatures rewritten through the inverted
class table. -/
def Mappings.inverted (m : Mappings) : Mappings :=
  let cls := m.classes.map (fun p => (p.2, p.1))
  { classes := cls
    fields := m.fields.map (fun p =>
      (p.2, { declaring := classImage cls p.2.declaring, name := p.1.name }))
    methods := m.methods.map (fun p =>
      (p.2, { declaring := classImage cls p.2.declaring
              name := p.1.name
              sig := transformSig cls p.2.sig })) }

/-- Modelled from the spec (§4.1): the builder's replace-on-duplicate
insertion (`SimpleMappings::set_*_name`). -/
def setEntry {K V : Type} [DecidableEq K]
    (l : List (K × V)) (k : K) (v : V) : List (K × V) :=
  if (alookup l k).isSome then replaceEntry l k v else l ++ [(k, v)]

/-! ## Composition engine (libs/engine/src/computer.rs) -/

/-- Embeds the MCP dictionaries (`McpMappings`): insertion-ordered
tables from SRG member name to human name. -/
structure McpDict where
  fields : List (String × String)
  methods : List (String × String)
  deriving DecidableEq

/-- The loaded inputs of a `MappingsTargetComputer`: the SRG mappings
for the fixed game version, the chained Spigot mappings, and the MCP
dictionaries when an MCP version was supplied (claims about the engine
assume these loads succeed, so they appear as values). -/
structure ComputerCtx where
  obf2srg : Mappings
  spigotChained : Mappings
  mcpDict : Option McpDict
  deriving DecidableEq

/-- Embeds the engine's error kinds reachable in this model: the
"Unspecified MCP version" failure, and `TargetComputeError` wrapping a
cause with the offending target. -/
inductive EngineErr where
  | unspecifiedMcpVersion
  | targetWrapped (t : TargetMapping) (e : EngineErr)
  deriving DecidableEq

/-- The observable outcome of `compute_target`: a mappings value, a
returned error, or a Rust panic. -/
inductive ComputeOut where
  | ok (m : Mappings)
  | err (e : EngineErr)
  | panicked (msg : String)
  deriving DecidableEq

/-- Propagation of non-success outcomes (the `?` operator). -/
def bindOut (o : ComputeOut) (f : Mappings → ComputeOut) : ComputeOut :=
  match o with
  | ComputeOut.ok m => f m
  | e => e

/-- Mapping over a successful outcome. -/
def mapOut (f : Mappings → Mappings) (o : ComputeOut) : ComputeOut :=
  match o with
  | ComputeOut.ok m => ComputeOut.ok (f m)
  | e => e

/-- Embeds `compute_target`'s `map_err`: a returned error is wrapped in
`TargetComputeError` with the requested target; panics unwind past
it. -/
def wrapTarget (t : TargetMapping) (o : ComputeOut) : ComputeOut :=
  match o with
  | ComputeOut.err e => ComputeOut.err (EngineErr.targetWrapped t e)
  | x => x

/-- Embeds the (srg, mcp) arm of `fallback_compute_target`: iterate the
fields and methods of obf2srg and give each SRG-side member its MCP
dictionary name when one exists; classes are not set. -/
def buildSrg2Mcp (obf2srg : Mappings) (dict : McpDict) : Mappings :=
  { classes := []
    fields := obf2srg.fields.foldl (fun acc p =>
      match alookup dict.fields p.2.name with
      | some mcpName =>
        setEntry acc p.2 { declaring := p.2.declaring, name := mcpName }
      | none => acc) []
    methods := obf2srg.methods.foldl (fun acc p =>
      match alookup dict.methods p.2.name with
      | some mcpName =>
        setEntry acc p.2
          { declaring := p.2.declaring, name := mcpName, sig := p.2.sig }
      | none => acc) [] }

/-- The constant `SRG2MCP` target. -/
def SRG2MCP : TargetMapping := TargetMapping.new MappingSystem.srg MappingSystem.mcp

/-- The constant `SRG2OBF` target. -/
def SRG2OBF : TargetMapping := TargetMapping.new MappingSystem.srg MappingSystem.obf

/-- The constant `OBF2MCP` target. -/
def OBF2MCP : TargetMapping := TargetMapping.new MappingSystem.obf MappingSystem.mcp

/-- The constant `MCP2OBF` target. -/
def MCP2OBF : TargetMapping := TargetMapping.new MappingSystem.mcp MappingSystem.obf

/-- The constant `SPIGOT2OBF` target. -/
def SPIGOT2OBF : TargetMapping := TargetMapping.new MappingSystem.spigot MappingSystem.obf

/-- Embeds `compute_target(SRG2MCP)` (default flags, so `apply_flags`
is the identity on its result); the missing-MCP-version error is
wrapped with the SRG2MCP target. -/
def ctSrg2Mcp (ctx : ComputerCtx) : ComputeOut :=
  wrapTarget SRG2MCP
    (match ctx.mcpDict with
      | none => ComputeOut.err EngineErr.unspecifiedMcpVersion
      | some d => ComputeOut.ok (buildSrg2Mcp ctx.obf2srg d))

/-- Embeds `compute_target(SRG2OBF)`: invert obf2srg. -/
def ctSrg2Obf (ctx : ComputerCtx) : ComputeOut :=
  wrapTarget SRG2OBF (ComputeOut.ok ctx.obf2srg.inverted)

/-- Embeds `compute_target(OBF2MCP)`: chain obf2srg with srg2mcp. -/
def ctObf2Mcp (ctx : ComputerCtx) : ComputeOut :=
  wrapTarget OBF2MCP
    (mapOut (Mappings.chain ctx.obf2srg) (ctSrg2Mcp ctx))

/-- Embeds `compute_target(MCP2OBF)`: invert obf2mcp. -/
def ctMcp2Obf (ctx : ComputerCtx) : ComputeOut :=
  wrapTarget MCP2OBF (mapOut Mappings.inverted (ctObf2Mcp ctx))

/-- Embeds `compute_target(SPIGOT2OBF)`: invert obf2spigot. -/
def ctSpigot2Obf (ctx : ComputerCtx) : ComputeOut :=
  wrapTarget SPIGOT2OBF (ComputeOut.ok ctx.spigotChained.inverted)

/-- Embeds `apply_flags`'s inner
`compute_target(target.original.create_target(Obf))` call, dispatched
on the original system. The `obf` arm is unreachable (the caller
handles it first) but would panic as the identity target. -/
def ct2Obf (ctx : ComputerCtx) : MappingSystem → ComputeOut
  | MappingSystem.srg => ctSrg2Obf ctx
  | MappingSystem.mcp => ctMcp2Obf ctx
  | MappingSystem.spigot => ctSpigot2Obf ctx
  | MappingSystem.obf => ComputeOut.panicked "Redundant"

/-- Embeds the dispatch table of `fallback_compute_target` before
`apply_flags`, exactly as written in the source — including the
(srg, spigot) arm, whose second operand is `compute_target(SRG2OBF)`
rather than `compute_target(OBF2SPIGOT)`, and the panic on identity
pairs. Inner `compute_target` calls are the memoized constants above
(all of them carry default flags, so their `apply_flags` step is the
identity). -/
def dispatchBase (ctx : ComputerCtx) :
    MappingSystem → MappingSystem → ComputeOut
  | MappingSystem.srg, MappingSystem.mcp =>
    (match ctx.mcpDict with
      | none => ComputeOut.err EngineErr.unspecifiedMcpVersion
      | some d => ComputeOut.ok (buildSrg2Mcp ctx.obf2srg d))
  | MappingSystem.srg, MappingSystem.spigot =>
    bindOut (ctSrg2Obf ctx) (fun srg2obf =>
      mapOut (Mappings.chain srg2obf) (ctSrg2Obf ctx))
  | MappingSystem.srg, MappingSystem.obf =>
    ComputeOut.ok ctx.obf2srg.inverted
  | MappingSystem.mcp, MappingSystem.srg =>
    mapOut Mappings.inverted (ctSrg2Mcp ctx)
  | MappingSystem.mcp, MappingSystem.spigot =>
    bindOut (ctMcp2Obf ctx) (fun mcp2obf =>
      ComputeOut.ok (mcp2obf.chain ctx.spigotChained))
  | MappingSystem.mcp, MappingSystem.obf =>
    mapOut Mappings.inverted (ctObf2Mcp ctx)
  | MappingSystem.spigot, MappingSystem.srg =>
    bindOut (ctSpigot2Obf ctx) (fun spigot2obf =>
      ComputeOut.ok (spigot2obf.chain ctx.obf2srg))
  | MappingSystem.spigot, MappingSystem.mcp =>
    bindOut (ctSpigot2Obf ctx) (fun spigot2obf =>
      mapOut (Mappings.chain spigot2obf) (ctObf2Mcp ctx))
  | MappingSystem.spigot, MappingSystem.obf =>
    ComputeOut.ok ctx.spigotChained.inverted
  | MappingSystem.obf, MappingSystem.srg => ComputeOut.ok ctx.obf2srg
  | MappingSystem.obf, MappingSystem.mcp =>
    mapOut (Mappings.chain ctx.obf2srg) (ctSrg2Mcp ctx)
  | MappingSystem.obf, MappingSystem.spigot =>
    ComputeOut.ok ctx.spigotChained
  | MappingSystem.srg, MappingSystem.srg => ComputeOut.panicked "Redundant"
  | MappingSystem.mcp, MappingSystem.mcp => ComputeOut.panicked "Redundant"
  | MappingSystem.spigot, MappingSystem.spigot =>
    ComputeOut.panicked "Redundant"
  | MappingSystem.obf, MappingSystem.obf => ComputeOut.panicked "Redundant"

/-- Embeds the only-obf retain predicates of `apply_flags` through
`rebuild().retain_*`: a class entry survives when its original is
unmapped by original2obf or maps to itself; a field or method entry
survives when its original is unmapped or keeps its name. -/
def retainOnlyObf (original2obf m : Mappings) : Mappings :=
  { classes := m.classes.filter (fun p =>
      match alookup original2obf.classes p.1 with
      | some obfName => decide (p.1 = obfName)
      | none => true)
    fields := m.fields.filter (fun p =>
      match alookup original2obf.fields p.1 with
      | some obfField => decide (p.1.name = obfField.name)
      | none => true)
    methods := m.methods.filter (fun p =>
      match alookup original2obf.methods p.1 with
      | some obfMethod => decide (p.1.name = obfMethod.name)
      | none => true) }

/-- Embeds the filter step of `apply_flags`: the classes filter clears
fields and methods, the members filter clears classes. -/
def applyFilter (filt : Option TargetFilter) (m : Mappings) : Mappings :=
  match filt with
  | none => m
  | some TargetFilter.classes => { m with fields := [], methods := [] }
  | some TargetFilter.members => { m with classes := [] }

/-- Embeds the only-obf step of `apply_flags`: skipped when the flag is
unset or the original system is already obf; otherwise the
original-to-obf mappings are computed and the retain predicates are
applied. -/
def onlyObfStep (ctx : ComputerCtx) (t : TargetMapping) (m : Mappings) :
    ComputeOut :=
  if t.flags.onlyObf then
    if t.original = MappingSystem.obf then ComputeOut.ok m
    else
      bindOut (ct2Obf ctx t.original) (fun original2obf =>
        ComputeOut.ok (retainOnlyObf original2obf m))
  else ComputeOut.ok m

/-- Embeds `apply_flags`: a no-op for default flags; otherwise the
only-obf step runs first and the classes/members filter second. -/
def applyFlags (ctx : ComputerCtx) (t : TargetMapping) (m : Mappings) :
    ComputeOut :=
  if t.flags = TargetFlags.default then ComputeOut.ok m
  else
    bindOut (onlyObfStep ctx t m) (fun m1 =>
      ComputeOut.ok (applyFilter t.flags.filter m1))

/-- Embeds `fallback_compute_target`: the dispatch table followed by
`apply_flags`. -/
def fallbackCompute (ctx : ComputerCtx) (t : TargetMapping) : ComputeOut :=
  bindOut (dispatchBase ctx t.original t.renamed) (fun m =>
    applyFlags ctx t m)

/-- Embeds `compute_target` (memoization is observationally pure, so
the memo is elided): the fallback computation with returned errors
wrapped in `TargetComputeError` for the requested target. -/
def computeTarget (ctx : ComputerCtx) (t : TargetMapping) : ComputeOut :=
  wrapTarget t (fallbackCompute ctx t)

/-- A small computer context witnessing the (srg, spigot) dispatch bug:
one obfuscated class `a` named `ClassA` by SRG and `SpigA` by
Spigot. -/
def ctxC1 : ComputerCtx :=
  { obf2srg := ⟨[("a", "ClassA")], [], []⟩
    spigotChained := ⟨[("a", "SpigA")], [], []⟩
    mcpDict := none }

/-- C1 fails on the code: the (srg, spigot) arm binds its second
operand to `compute_target(SRG2OBF)` instead of
`compute_target(OBF2SPIGOT)`, so on `ctxC1` the engine returns the
chain of srg2obf with itself (mapping `ClassA` back to `a`) rather
than the claimed chain of srg2obf with obf2spigot (which maps `ClassA`
to `SpigA`). -/
theorem claim_C1_srg2spigot_wrong_chain_operand :
    computeTarget ctxC1
        (TargetMapping.new MappingSystem.srg MappingSystem.spigot)
      = ComputeOut.ok ⟨[("ClassA", "a")], [], []⟩
    ∧ Mappings.chain ctxC1.obf2srg.inverted ctxC1.spigotChained
      = ⟨[("ClassA", "SpigA")], [], []⟩
    ∧ computeTarget ctxC1
        (TargetMapping.new MappingSystem.srg MappingSystem.spigot)
      ≠ ComputeOut.ok
          (Mappings.chain ctxC1.obf2srg.inverted ctxC1.spigotChained) := by
  refine ⟨rfl, rfl, by decide⟩

/-- C10: for every mapping system X, the string `<X>2<X>` parses
successfully to the identity TargetMapping with default flags; the
identity pair is rejected only inside `compute_target`, which panics
("Redundant") rather than returning an error. -/
theorem claim_C10_identity_target_parses_then_panics :
    (∀ x : MappingSystem,
      targetFromStr (x.toId ++ "2" ++ x.toId) = .ok (TargetMapping.new x x))
    ∧ targetFromStr "obf2obf"
        = .ok (TargetMapping.new MappingSystem.obf MappingSystem.obf)
    ∧ ∀ (ctx : ComputerCtx) (x : MappingSystem),
        computeTarget ctx (TargetMapping.new x x)
          = ComputeOut.panicked "Redundant" := by
  refine ⟨fun x => ?_, rfl, fun ctx x => ?_⟩
  · cases x <;> rfl
  · cases x <;> rfl

/-- Modelled from the spec (§4.4 flags application): the only-obf
restriction described by the claim — retain exactly the class entries
whose original is undefined in F2OBF or equal to its F2OBF image, and
the field/method entries whose original is undefined in F2OBF or keeps
its name there. -/
def retainOnlyObfSpec (f2obf m : Mappings) : Mappings :=
  { classes := m.classes.filter (fun p =>
      decide (alookup f2obf.classes p.1 = none
        ∨ alookup f2obf.classes p.1 = some p.1))
    fields := m.fields.filter (fun p =>
      decide (alookup f2obf.fields p.1 = none
        ∨ (alookup f2obf.fields p.1).map FieldData.name = some p.1.name))
    methods := m.methods.filter (fun p =>
      decide (alookup f2obf.methods p.1 = none
        ∨ (alookup f2obf.methods p.1).map MethodData.name = some p.1.name)) }

/-- The retain predicates written in `apply_flags` coincide with the
spec's description of the only-obf restriction. -/
theorem retainOnlyObf_eq_spec (f m : Mappings) :
    retainOnlyObf f m = retainOnlyObfSpec f m := by
  unfold retainOnlyObf retainOnlyObfSpec
  simp only [Mappings.mk.injEq]
  refine ⟨?_, ?_, ?_⟩ <;>
    · apply List.filter_congr
      intro p _
      cases h : alookup _ p.1 <;>
        simp [h, decide_eq_decide, eq_comm]

/-- The target with its only-obf flag cleared. -/
def clearOnlyObf (t : TargetMapping) : TargetMapping :=
  ⟨t.original, t.renamed, ⟨t.flags.filter, false⟩⟩

/-- C4: flag application handles only-obf as claimed. When the
target's from-system is obf, the only-obf flag changes nothing: the
computed result is that of the same target with only-obf cleared. For
any other from-system, with F2OBF the engine's from-to-obf result, the
computed result is exactly the base mappings restricted to the entries
still obfuscated in the source naming (per `retainOnlyObfSpec`), with
the classes/members filter applied after the only-obf step. -/
theorem claim_C4_only_obf_flag_application (ctx : ComputerCtx)
    (t : TargetMapping) :
    (t.original = MappingSystem.obf →
      ∀ m, dispatchBase ctx t.original t.renamed = ComputeOut.ok m →
        computeTarget ctx t = computeTarget ctx (clearOnlyObf t))
    ∧ (t.original ≠ MappingSystem.obf → t.flags.onlyObf = true →
      ∀ m f2obf,
        dispatchBase ctx t.original t.renamed = ComputeOut.ok m →
        ct2Obf ctx t.original = ComputeOut.ok f2obf →
        computeTarget ctx t =
          ComputeOut.ok
            (applyFilter t.flags.filter (retainOnlyObfSpec f2obf m))) := by
  rcases t with ⟨o, r, filt, ob⟩
  constructor
  · intro ho m hm
    subst ho
    cases ob <;> rcases filt with _ | f <;>
      simp only [computeTarget, fallbackCompute, clearOnlyObf, hm, bindOut] <;>
      try rfl
  · intro hne hob m f2obf hm hf
    have hob2 : ob = true := hob
    subst hob2
    have hnd : ((⟨filt, true⟩ : TargetFlags) = TargetFlags.default) = False := by
      simp [TargetFlags.default]
    cases o with
    | obf => exact absurd rfl hne
    | srg =>
      simp only [computeTarget, fallbackCompute, hm, bindOut, applyFlags,
        onlyObfStep, hnd, hf, retainOnlyObf_eq_spec]
      rfl
    | mcp =>
      simp only [computeTarget, fallbackCompute, hm, bindOut, applyFlags,
        onlyObfStep, hnd, hf, retainOnlyObf_eq_spec]
      rfl
    | spigot =>
      simp only [computeTarget, fallbackCompute, hm, bindOut, applyFlags,
        onlyObfStep, hnd, hf, retainOnlyObf_eq_spec]
      rfl

/-- A computer context for the C4 witness. -/
def ctxC4 : ComputerCtx :=
  { obf2srg := ⟨[("a", "ClassA")], [], []⟩
    spigotChained := ⟨[], [], []⟩
    mcpDict := none }

/-- The C4 witness target: srg to spigot with the classes filter and
the only-obf flag. -/
def tC4 : TargetMapping :=
  ⟨MappingSystem.srg, MappingSystem.spigot, ⟨some TargetFilter.classes, true⟩⟩

/-- The base mappings the dispatch table computes for `tC4` on
`ctxC4`. -/
def mC4 : Mappings :=
  Mappings.chain ctxC4.obf2srg.inverted ctxC4.obf2srg.inverted

/-- The srg-to-obf mappings used by the only-obf step on `ctxC4`. -/
def f2obfC4 : Mappings := ctxC4.obf2srg.inverted

/-- Witness for C4: both parts applied at concrete inputs. -/
theorem claim_C4_witness :
    (computeTarget ctxC4
        ⟨MappingSystem.obf, MappingSystem.srg, ⟨some TargetFilter.classes, true⟩⟩
      = computeTarget ctxC4
          (clearOnlyObf ⟨MappingSystem.obf, MappingSystem.srg,
            ⟨some TargetFilter.classes, true⟩⟩))
    ∧ computeTarget ctxC4 tC4
      = ComputeOut.ok
          (applyFilter tC4.flags.filter (retainOnlyObfSpec f2obfC4 mC4)) :=
  ⟨(claim_C4_only_obf_flag_application ctxC4 _).1 rfl ctxC4.obf2srg rfl,
   (claim_C4_only_obf_flag_application ctxC4 tC4).2 (by decide) rfl
     mC4 f2obfC4 rfl rfl⟩

end MinecraftMappings
